import Mathlib

/-!
Verification development for the minimodem FSK modem driver
(`src/minimodem.c`).  The receive loop, the NOCARRIER report, and the
transmit loop are shallowly embedded below.  Machine floats are modelled
as exact rationals; conversions of non-negative floating values to C
unsigned integers are modelled as `Int.toNat` of the floor.  The DSP
module (`fsk.c`) and the audio backend (`simpleaudio`) are not part of
this repository source, so the results of `fsk_find_frame` and of
`simpleaudio_read` enter the model as oracle inputs per loop iteration,
and the framebits decoder is a parameter of the loop.
-/

unseal Rat.mul Rat.inv Rat.add Rat.sub

namespace Minimodem

/-- Receive-side configuration, as fixed in `main` before the receive
loop starts: sample rate, baud rate, data-bit count, the quiet flag and
the two confidence controls.  `n_frame_bits` is the frame-bit count
carried by the external fsk plan. -/
structure Config where
  sample_rate : ℕ
  bfsk_data_rate : ℚ
  n_data_bits : ℕ
  n_frame_bits : ℕ
  quiet_mode : Bool
  fsk_confidence_threshold : ℚ
  fsk_confidence_search_limit : ℚ
deriving DecidableEq

/-- Embeds `float nsamples_per_bit = sample_rate / bfsk_data_rate` from
`main`. -/
def nsamples_per_bit (cfg : Config) : ℚ :=
  (cfg.sample_rate : ℚ) / cfg.bfsk_data_rate

/-- Embeds `float fsk_frame_overscan = 0.5`. -/
def fsk_frame_overscan : ℚ := 1/2

/-- Embeds `unsigned int nsamples_overscan = nsamples_per_bit *
fsk_frame_overscan + 0.5;` followed by the clamp to at least one sample
when the overscan fraction is positive. -/
def nsamples_overscan (cfg : Config) : ℕ :=
  let v : ℕ := (⌊nsamples_per_bit cfg * fsk_frame_overscan + 1/2⌋).toNat
  if 0 < fsk_frame_overscan ∧ v = 0 then 1 else v

/-- Embeds `size_t samplebuf_size = ceilf(nsamples_per_bit) * (12+1);`
from `main`.  Note the multiplier is the constant `12+1`, independent of
the data-bit count. -/
def samplebuf_size (cfg : Config) : ℕ :=
  (⌈nsamples_per_bit cfg⌉).toNat * (12+1)

/-- Embeds `unsigned int try_max_nsamples = nsamples_per_bit +
nsamples_overscan;`. -/
def try_max_nsamples (cfg : Config) : ℕ :=
  (⌊nsamples_per_bit cfg + (nsamples_overscan cfg : ℚ)⌋).toNat

/-- Embeds `unsigned int frame_nsamples = nsamples_per_bit *
fskp->n_frame_bits;`. -/
def frame_nsamples (cfg : Config) : ℕ :=
  (⌊nsamples_per_bit cfg * (cfg.n_frame_bits : ℚ)⌋).toNat

/-- Embeds `#define FSK_MAX_NOCONFIDENCE_BITS 20`. -/
def FSK_MAX_NOCONFIDENCE_BITS : ℕ := 20

/-- Embeds the framing-bit chop after `fsk_find_frame` returns:
`if (fskp->n_data_bits == 5) bits = (bits >> 2) & 0x1F; else
bits = (bits >> 2) & 0xFF;`. -/
def chop_framing_bits (n_data_bits bits : ℕ) : ℕ :=
  if n_data_bits = 5 then (bits >>> 2) &&& 0x1F else (bits >>> 2) &&& 0xFF

/-- Embeds `framebits_decode_ascii8` in its non-reset case: one output
byte equal to the frame data bits. -/
def framebits_decode_ascii8 (bits : ℕ) : List ℕ := [bits]

/-- Result triple of one `fsk_find_frame` call: the confidence score,
the raw frame bits and the sample offset of the located frame. -/
structure FrameResult where
  confidence : ℚ
  bits : ℕ
  frame_start_sample : ℕ
deriving DecidableEq

/-- The mutable receive-loop state threaded through iterations of the
main loop in `main`. -/
structure RxState where
  carrier : Bool
  confidence_total : ℚ
  nframes_decoded : ℕ
  carrier_nsamples : ℕ
  noconfidence : ℕ
  advance : ℕ
  carrier_band : ℤ
deriving DecidableEq

/-- Initial values of the receive-loop state at engine start. -/
def initRxState : RxState :=
  { carrier := false
    confidence_total := 0
    nframes_decoded := 0
    carrier_nsamples := 0
    noconfidence := 0
    advance := 0
    carrier_band := -1 }

/-- Content of one NOCARRIER stderr report, as computed by
`report_no_carrier`. -/
structure NoCarrierReport where
  ndata : ℕ
  confidence : ℚ
  throughput : ℚ
  rate_perfect : Bool
  skew_pct : ℚ
  skew_slow : Bool
deriving DecidableEq

/-- Embeds `report_no_carrier`: the printed fields and the choice
between the `(rate perfect)` tail and the slow/fast skew tail. -/
def report_no_carrier (cfg : Config) (nframes_decoded : ℕ)
    (carrier_nsamples : ℕ) (confidence_total : ℚ) : NoCarrierReport :=
  let nbits_total : ℕ := nframes_decoded * (cfg.n_data_bits + 2)
  let throughput_rate : ℚ :=
    (nbits_total : ℚ) * (cfg.sample_rate : ℚ) / (carrier_nsamples : ℚ)
  let throughput_skew : ℚ :=
    (throughput_rate - cfg.bfsk_data_rate) / cfg.bfsk_data_rate
  { ndata := nframes_decoded
    confidence := confidence_total / (nframes_decoded : ℚ)
    throughput := throughput_rate
    rate_perfect :=
      (⌊(nbits_total : ℚ) * nsamples_per_bit cfg + 1/2⌋).toNat
        == carrier_nsamples
    skew_pct := |throughput_skew| * 100
    skew_slow := decide (throughput_skew < 0) }

/-- Observable side effects of one receive-loop iteration: stderr
messages, the decoder-reset call, and bytes written to stdout. -/
inductive RxEvent where
  | carrierAnnounce : RxEvent
  | nocarrier : NoCarrierReport → RxEvent
  | decoderReset : RxEvent
  | outByte : ℕ → RxEvent
  | readErrorMsg : RxEvent
deriving DecidableEq

/-- The stdout bytes among a list of events. -/
def outBytes (evs : List RxEvent) : List ℕ :=
  evs.filterMap fun e =>
    match e with
    | RxEvent.outByte b => some b
    | _ => none

/-- Embeds the frame-handling tail of one main-loop iteration in `main`
(from the framing-bit chop through the stdout write): the low-confidence
path with its noconfidence counter and carrier reset, and the acceptance
path with carrier statistics, the advance computation and the framebits
decode.  `decode` stands for the `bfsk_framebits_decode` function
pointer restricted to its data path. -/
def processFrame (cfg : Config) (decode : ℕ → List ℕ) (st : RxState)
    (fr : FrameResult) : RxState × List RxEvent :=
  let bits := chop_framing_bits cfg.n_data_bits fr.bits
  if fr.confidence ≤ cfg.fsk_confidence_threshold then
    let noconfidence := st.noconfidence + 1
    if FSK_MAX_NOCONFIDENCE_BITS < noconfidence then
      if st.carrier then
        ({ carrier := false
           confidence_total := 0
           nframes_decoded := 0
           carrier_nsamples := 0
           noconfidence := noconfidence
           advance := try_max_nsamples cfg
           carrier_band := -1 },
         if cfg.quiet_mode then [] else
           [RxEvent.nocarrier (report_no_carrier cfg st.nframes_decoded
             st.carrier_nsamples st.confidence_total)])
      else
        ({ st with
           carrier_band := -1
           noconfidence := noconfidence
           advance := try_max_nsamples cfg }, [])
    else
      ({ st with
         noconfidence := noconfidence
         advance := try_max_nsamples cfg }, [])
  else
    let cn1 : ℕ :=
      (⌊(st.carrier_nsamples : ℚ)
          + nsamples_per_bit cfg * ((cfg.n_data_bits : ℚ) + 2)⌋).toNat
    let cn2 : ℕ :=
      if st.carrier then cn1 + fr.frame_start_sample - nsamples_overscan cfg
      else cn1
    let evs1 : List RxEvent :=
      if st.carrier then [] else
        (if cfg.quiet_mode then [] else [RxEvent.carrierAnnounce])
          ++ [RxEvent.decoderReset]
    let adv : ℕ :=
      (⌊(fr.frame_start_sample : ℚ)
          + nsamples_per_bit cfg * ((cfg.n_data_bits : ℚ) + 2)
          - (nsamples_overscan cfg : ℚ)⌋).toNat
    ({ carrier := true
       confidence_total := st.confidence_total + fr.confidence
       nframes_decoded := st.nframes_decoded + 1
       carrier_nsamples := cn2
       noconfidence := 0
       advance := adv
       carrier_band := st.carrier_band },
     evs1 ++ (decode bits).map RxEvent.outByte)

/-- Embeds `if (fsk_confidence_search_limit < fsk_confidence_threshold)
fsk_confidence_search_limit = fsk_confidence_threshold;` run in `main`
before the receive loop. -/
def sanitize_search_limit (threshold limit : ℚ) : ℚ :=
  if limit < threshold then threshold else limit

/-- Embeds the per-iteration choice of `try_first_sample` and
`try_confidence_search_limit` in `main`: with carrier, overscan offset
and the configured finite limit; without carrier, offset 0 and INFINITY
(modelled as the top element). -/
def try_search_params (cfg : Config) (carrier : Bool) : ℕ × WithTop ℚ :=
  if carrier then (nsamples_overscan cfg, (cfg.fsk_confidence_search_limit : WithTop ℚ))
  else (0, ⊤)

/-- Outcome of one `simpleaudio_read` call: a negative return (error) or
a sample count. -/
inductive ReadResult where
  | err : ReadResult
  | ok : ℕ → ReadResult
deriving DecidableEq

/-- Loop-level state: the frame-processing state together with the
count of valid samples in the sliding buffer and the pending return
code of `main`. -/
structure LoopState where
  rx : RxState
  samples_nvalid : ℕ
  ret : ℤ
deriving DecidableEq

/-- Initial loop state at engine start. -/
def initLoopState : LoopState :=
  { rx := initRxState, samples_nvalid := 0, ret := 0 }

/-- How one run of the receive loop ended. -/
inductive LoopExit where
  | advanceUnderflow : LoopExit
  | readError : LoopExit
  | eofNoSamples : LoopExit
  | shortBuffer : LoopExit
  | outOfInput : LoopExit
deriving DecidableEq

/-- Embeds the buffer-shift prologue of a loop iteration: when the
previous advance consumed the whole buffer, all samples are discarded
and the advance cleared. -/
def shiftPhase (cfg : Config) (st : LoopState) : LoopState :=
  if st.rx.advance = samplebuf_size cfg then
    { rx := { st.rx with advance := 0 }
      samples_nvalid := 0
      ret := st.ret }
  else st

/-- Embeds the receive main loop of `main`, driven by a finite oracle
stream of (read result, frame-locator result) pairs; one list element is
consumed per iteration.  Returns the final state, the emitted events in
order, and the way the loop exited. -/
def runLoop (cfg : Config) (decode : ℕ → List ℕ) :
    List (ReadResult × FrameResult) → LoopState →
      LoopState × List RxEvent × LoopExit
  | [], st => (st, [], LoopExit.outOfInput)
  | (r, fr) :: rest, st =>
    let st1 := shiftPhase cfg st
    if 0 < st1.rx.advance ∧ st1.samples_nvalid < st1.rx.advance then
      (st1, [], LoopExit.advanceUnderflow)
    else
      let st2 : LoopState :=
        { st1 with samples_nvalid := st1.samples_nvalid - st1.rx.advance }
      match r with
      | ReadResult.err =>
          ({ st2 with ret := -1 }, [RxEvent.readErrorMsg], LoopExit.readError)
      | ReadResult.ok n =>
          let st3 : LoopState :=
            { st2 with samples_nvalid := st2.samples_nvalid + n }
          if st3.samples_nvalid = 0 then (st3, [], LoopExit.eofNoSamples)
          else if st3.samples_nvalid < frame_nsamples cfg then
            (st3, [], LoopExit.shortBuffer)
          else
            let pr := processFrame cfg decode st3.rx fr
            let res := runLoop cfg decode rest { st3 with rx := pr.1 }
            (res.1, pr.2 ++ res.2.1, res.2.2)

/-- Embeds the epilogue of `main` after the receive loop: a final
NOCARRIER report when the carrier is still acquired and quiet mode is
off, and the return value. -/
def finishReceive (cfg : Config) (st : LoopState) : List RxEvent × ℤ :=
  (if st.rx.carrier && !cfg.quiet_mode then
     [RxEvent.nocarrier (report_no_carrier cfg st.rx.nframes_decoded
       st.rx.carrier_nsamples st.rx.confidence_total)]
   else [], st.ret)

/-!  Transmit path (`fsk_transmit_stdin` and the tx globals). -/

/-- Transmit-side configuration: the arguments fixed when
`fsk_transmit_stdin` is called. -/
structure TxParams where
  sample_rate : ℕ
  data_rate : ℚ
  bfsk_mark_f : ℚ
  bfsk_space_f : ℚ
  n_data_bits : ℕ
  bfsk_txstopbits : ℚ
deriving DecidableEq

/-- One `simpleaudio_tone` call: frequency and duration in samples. -/
structure Tone where
  freq : ℚ
  nsamples : ℕ
deriving DecidableEq

/-- Embeds `size_t bit_nsamples = sample_rate / data_rate + 0.5;`. -/
def tx_bit_nsamples (p : TxParams) : ℕ :=
  (⌊(p.sample_rate : ℚ) / p.data_rate + 1/2⌋).toNat

/-- Embeds `int tx_leader_bits_len = 2;`. -/
def tx_leader_bits_len : ℕ := 2

/-- Embeds `int tx_trailer_bits_len = 2;`. -/
def tx_trailer_bits_len : ℕ := 2

/-- Tones emitted for one data word: a space start bit, the data bits
LSB-first (mark for 1, space for 0), then the stop period of
`bit_nsamples * bfsk_txstopbits` samples of mark. -/
def txWordTones (p : TxParams) (w : ℕ) : List Tone :=
  { freq := p.bfsk_space_f, nsamples := tx_bit_nsamples p } ::
  ((List.range p.n_data_bits).map fun i =>
    { freq := if (w >>> i) &&& 1 = 1 then p.bfsk_mark_f else p.bfsk_space_f
      nsamples := tx_bit_nsamples p })
  ++ [{ freq := p.bfsk_mark_f
        nsamples := (⌊(tx_bit_nsamples p : ℚ) * p.bfsk_txstopbits⌋).toNat }]

/-- One pass of the body of the getchar loop in `fsk_transmit_stdin`:
encode the byte, emit the leader if not yet transmitting, then emit
each word. -/
def txStep (p : TxParams) (encode : ℕ → List ℕ)
    (acc : Bool × List Tone) (c : ℕ) : Bool × List Tone :=
  let words := encode c
  let leader : List Tone :=
    if acc.1 then []
    else List.replicate tx_leader_bits_len
      { freq := p.bfsk_mark_f, nsamples := tx_bit_nsamples p }
  (true, acc.2 ++ leader ++ words.flatMap (txWordTones p))

/-- Embeds `tx_stop_transmit_sighandler`: the trailer mark bits followed
by half a second of zero samples. -/
def txTrailer (p : TxParams) : List Tone :=
  List.replicate tx_trailer_bits_len
    { freq := p.bfsk_mark_f, nsamples := tx_bit_nsamples p }
  ++ [{ freq := 0, nsamples := p.sample_rate / 2 }]

/-- Embeds `fsk_transmit_stdin` (non-interactive path) on a finite input
byte stream: the getchar loop followed by the final trailer flush when
anything was transmitted. -/
def fsk_transmit_stdin (p : TxParams) (encode : ℕ → List ℕ)
    (input : List ℕ) : List Tone :=
  let acc := input.foldl (txStep p encode) (false, [])
  if acc.1 then acc.2 ++ txTrailer p else acc.2

/-!  Concrete instances used to exercise the definitions. -/

/-- The Bell-103 style configuration picked by `minimodem -8 300`:
48 kHz samples, 300 baud, 8 data bits, default confidence controls. -/
def cfg300 : Config :=
  { sample_rate := 48000
    bfsk_data_rate := 300
    n_data_bits := 8
    n_frame_bits := 11
    quiet_mode := false
    fsk_confidence_threshold := 2
    fsk_confidence_search_limit := 23/10 }

/-- A receive state with carrier acquired, two frames decoded and a
fresh noconfidence counter. -/
def stAcq : RxState :=
  { carrier := true
    confidence_total := 5
    nframes_decoded := 2
    carrier_nsamples := 3000
    noconfidence := 0
    advance := 0
    carrier_band := -1 }

/-- A low-confidence frame-locator result (pure noise). -/
def frLow : FrameResult :=
  { confidence := 0, bits := 0, frame_start_sample := 0 }

/-- A high-confidence frame-locator result. -/
def frGood : FrameResult :=
  { confidence := 3, bits := 0x2A5, frame_start_sample := 70 }

/-!  Helper lemmas. -/

theorem outBytes_append (a b : List RxEvent) :
    outBytes (a ++ b) = outBytes a ++ outBytes b :=
  List.filterMap_append a b _

theorem outBytes_map_outByte (l : List ℕ) :
    outBytes (l.map RxEvent.outByte) = l := by
  induction l with
  | nil => rfl
  | cons x xs ih =>
      simpa [outBytes, List.filterMap_cons] using ih

theorem outBytes_carrier_events (cfg : Config) (st : RxState) :
    outBytes (if st.carrier then [] else
      (if cfg.quiet_mode then [] else [RxEvent.carrierAnnounce])
        ++ [RxEvent.decoderReset]) = [] := by
  split_ifs <;> simp [outBytes, List.filterMap_cons]

/-- The carrier-state invariant claimed by the spec: decoded frames
imply carrier, and an unacquired carrier has all statistics zeroed. -/
abbrev RxInv (st : RxState) : Prop :=
  (0 < st.nframes_decoded → st.carrier = true) ∧
  (st.carrier = false →
    st.confidence_total = 0 ∧ st.carrier_nsamples = 0 ∧
    st.nframes_decoded = 0)

theorem processFrame_inv (cfg : Config) (decode : ℕ → List ℕ)
    (st : RxState) (fr : FrameResult) (h : RxInv st) :
    RxInv (processFrame cfg decode st fr).1 := by
  obtain ⟨h1, h2⟩ := h
  unfold processFrame
  dsimp only
  by_cases hcf : fr.confidence ≤ cfg.fsk_confidence_threshold
  · rw [if_pos hcf]
    by_cases hnc : FSK_MAX_NOCONFIDENCE_BITS < st.noconfidence + 1
    · rw [if_pos hnc]
      by_cases hcar : st.carrier = true
      · rw [if_pos hcar]
        exact ⟨fun hpos => absurd hpos (lt_irrefl 0), fun _ => ⟨rfl, rfl, rfl⟩⟩
      · rw [if_neg hcar]
        exact ⟨h1, h2⟩
    · rw [if_neg hnc]
      exact ⟨h1, h2⟩
  · rw [if_neg hcf]
    exact ⟨fun _ => rfl, fun hc => Bool.noConfusion hc⟩

theorem shiftPhase_inv (cfg : Config) (st : LoopState) (h : RxInv st.rx) :
    RxInv (shiftPhase cfg st).rx := by
  unfold shiftPhase
  by_cases hsz : st.rx.advance = samplebuf_size cfg
  · rw [if_pos hsz]; exact ⟨h.1, h.2⟩
  · rw [if_neg hsz]; exact h

theorem shiftPhase_ret (cfg : Config) (st : LoopState) :
    (shiftPhase cfg st).ret = st.ret := by
  unfold shiftPhase
  by_cases hsz : st.rx.advance = samplebuf_size cfg
  · rw [if_pos hsz]
  · rw [if_neg hsz]

theorem runLoop_inv (cfg : Config) (decode : ℕ → List ℕ) :
    ∀ (input : List (ReadResult × FrameResult)) (st : LoopState),
      RxInv st.rx → RxInv (runLoop cfg decode input st).1.rx := by
  intro input
  induction input with
  | nil => intro st h; exact h
  | cons p rest ih =>
      obtain ⟨r, fr⟩ := p
      intro st h
      have h1 : RxInv (shiftPhase cfg st).rx := shiftPhase_inv cfg st h
      simp only [runLoop]
      by_cases hu : 0 < (shiftPhase cfg st).rx.advance ∧
          (shiftPhase cfg st).samples_nvalid < (shiftPhase cfg st).rx.advance
      · rw [if_pos hu]; exact h1
      · rw [if_neg hu]
        cases r with
        | err => exact h1
        | ok n =>
            dsimp only
            by_cases he : (shiftPhase cfg st).samples_nvalid
                - (shiftPhase cfg st).rx.advance + n = 0
            · rw [if_pos he]; exact h1
            · rw [if_neg he]
              by_cases hs : (shiftPhase cfg st).samples_nvalid
                  - (shiftPhase cfg st).rx.advance + n < frame_nsamples cfg
              · rw [if_pos hs]; exact h1
              · rw [if_neg hs]
                exact ih _ (processFrame_inv cfg decode _ fr h1)

/-- One low-confidence receive iteration viewed as a state
transformer. -/
def lowConfStep (cfg : Config) (decode : ℕ → List ℕ) (fr : FrameResult)
    (st : RxState) : RxState :=
  (processFrame cfg decode st fr).1

theorem lowConfStep_def (cfg : Config) (decode : ℕ → List ℕ)
    (fr : FrameResult) (st : RxState) :
    lowConfStep cfg decode fr st = (processFrame cfg decode st fr).1 := rfl

theorem lowConfStep_eq (cfg : Config) (decode : ℕ → List ℕ)
    (fr : FrameResult) (st : RxState)
    (hconf : fr.confidence ≤ cfg.fsk_confidence_threshold)
    (hle : st.noconfidence + 1 ≤ FSK_MAX_NOCONFIDENCE_BITS) :
    lowConfStep cfg decode fr st =
      { st with
        noconfidence := st.noconfidence + 1
        advance := try_max_nsamples cfg } := by
  unfold lowConfStep processFrame
  dsimp only
  rw [if_pos hconf, if_neg (by omega : ¬ FSK_MAX_NOCONFIDENCE_BITS < st.noconfidence + 1)]

theorem lowConfStep_run (cfg : Config) (decode : ℕ → List ℕ)
    (fr : FrameResult) (hconf : fr.confidence ≤ cfg.fsk_confidence_threshold) :
    ∀ (n : ℕ) (st : RxState), st.carrier = true →
      st.noconfidence + n ≤ FSK_MAX_NOCONFIDENCE_BITS →
      ((lowConfStep cfg decode fr)^[n] st).carrier = true ∧
      ((lowConfStep cfg decode fr)^[n] st).noconfidence = st.noconfidence + n ∧
      ((lowConfStep cfg decode fr)^[n] st).confidence_total = st.confidence_total ∧
      ((lowConfStep cfg decode fr)^[n] st).carrier_nsamples = st.carrier_nsamples ∧
      ((lowConfStep cfg decode fr)^[n] st).nframes_decoded = st.nframes_decoded := by
  intro n
  induction n with
  | zero => intro st hc _; exact ⟨hc, rfl, rfl, rfl, rfl⟩
  | succ n ih =>
      intro st hc hle
      have h20 : FSK_MAX_NOCONFIDENCE_BITS = 20 := rfl
      rw [Function.iterate_succ_apply,
        lowConfStep_eq cfg decode fr st hconf (by omega)]
      have hrec := ih
        { st with
          noconfidence := st.noconfidence + 1
          advance := try_max_nsamples cfg } hc (by simp; omega)
      refine ⟨hrec.1, ?_, hrec.2.2⟩
      have := hrec.2.1
      simp only at this
      omega

theorem txFold_transmitting (p : TxParams) (encode : ℕ → List ℕ) :
    ∀ (cs : List ℕ) (ts : List Tone),
      cs.foldl (txStep p encode) (true, ts) =
        (true, ts ++ cs.flatMap fun c => (encode c).flatMap (txWordTones p)) := by
  intro cs
  induction cs with
  | nil => intro ts; simp
  | cons c cs ih =>
      intro ts
      rw [List.foldl_cons]
      have h1 : txStep p encode (true, ts) c =
          (true, ts ++ (encode c).flatMap (txWordTones p)) := by
        unfold txStep
        dsimp only
        rw [if_pos rfl]
        simp
      rw [h1, ih]
      simp [List.flatMap_cons, List.append_assoc]

/-!  Claim theorems. -/

/-- C1 (counterexample to the claim as stated): with the default 300
baud 8-bit configuration, a state with carrier acquired and a fresh run
counter, and a zero-confidence locator result, 20 consecutive
low-confidence frame-search attempts do NOT reset the carrier state:
the carrier is still acquired afterwards. -/
theorem C1_counterexample :
    stAcq.carrier = true ∧ stAcq.noconfidence = 0 ∧
    frLow.confidence ≤ cfg300.fsk_confidence_threshold ∧
    ((lowConfStep cfg300 framebits_decode_ascii8 frLow)^[20] stAcq).carrier
      = true := by
  decide

/-- C1 (amended): once the carrier has been acquired (with a fresh run
counter), 20 consecutive low-confidence attempts leave the carrier
acquired with the run counter at 20, and the 21st consecutive
low-confidence attempt (run counter exceeding FSK_MAX_NOCONFIDENCE_BITS
= 20) resets the carrier state to unacquired with all statistics
zeroed, emitting a NOCARRIER report unless quiet mode is on; the run
counter is cleared to zero by every accepted frame. -/
theorem C1_noconfidence_reset (cfg : Config) (decode : ℕ → List ℕ)
    (st : RxState) (fr : FrameResult)
    (hc : st.carrier = true) (hn : st.noconfidence = 0)
    (hconf : fr.confidence ≤ cfg.fsk_confidence_threshold) :
    ((lowConfStep cfg decode fr)^[20] st).carrier = true ∧
    ((lowConfStep cfg decode fr)^[20] st).noconfidence = 20 ∧
    ((lowConfStep cfg decode fr)^[21] st).carrier = false ∧
    ((lowConfStep cfg decode fr)^[21] st).confidence_total = 0 ∧
    ((lowConfStep cfg decode fr)^[21] st).carrier_nsamples = 0 ∧
    ((lowConfStep cfg decode fr)^[21] st).nframes_decoded = 0 ∧
    (cfg.quiet_mode = false →
      (processFrame cfg decode ((lowConfStep cfg decode fr)^[20] st) fr).2 =
        [RxEvent.nocarrier (report_no_carrier cfg st.nframes_decoded
          st.carrier_nsamples st.confidence_total)]) ∧
    (cfg.quiet_mode = true →
      (processFrame cfg decode ((lowConfStep cfg decode fr)^[20] st) fr).2
        = []) ∧
    (∀ (st' : RxState) (fr' : FrameResult),
      cfg.fsk_confidence_threshold < fr'.confidence →
      (processFrame cfg decode st' fr').1.noconfidence = 0) := by
  have h20 := lowConfStep_run cfg decode fr hconf 20 st hc
    (by rw [hn]; decide)
  obtain ⟨hcar20, hnoc20, hct20, hcn20, hnf20⟩ := h20
  have hnoc20' : ((lowConfStep cfg decode fr)^[20] st).noconfidence = 20 := by
    rw [hnoc20, hn]
  have hpf : processFrame cfg decode ((lowConfStep cfg decode fr)^[20] st) fr =
      ({ carrier := false
         confidence_total := 0
         nframes_decoded := 0
         carrier_nsamples := 0
         noconfidence := ((lowConfStep cfg decode fr)^[20] st).noconfidence + 1
         advance := try_max_nsamples cfg
         carrier_band := -1 },
       if cfg.quiet_mode then [] else
         [RxEvent.nocarrier (report_no_carrier cfg
           ((lowConfStep cfg decode fr)^[20] st).nframes_decoded
           ((lowConfStep cfg decode fr)^[20] st).carrier_nsamples
           ((lowConfStep cfg decode fr)^[20] st).confidence_total)]) := by
    unfold processFrame
    dsimp only
    rw [if_pos hconf,
      if_pos (show FSK_MAX_NOCONFIDENCE_BITS <
        ((lowConfStep cfg decode fr)^[20] st).noconfidence + 1 by
          rw [hnoc20']; decide),
      if_pos hcar20]
  have h21 : (lowConfStep cfg decode fr)^[21] st =
      lowConfStep cfg decode fr ((lowConfStep cfg decode fr)^[20] st) :=
    Function.iterate_succ_apply' (lowConfStep cfg decode fr) 20 st
  refine ⟨hcar20, hnoc20', ?_, ?_, ?_, ?_, ?_, ?_, ?_⟩
  · rw [h21, lowConfStep_def, hpf]
  · rw [h21, lowConfStep_def, hpf]
  · rw [h21, lowConfStep_def, hpf]
  · rw [h21, lowConfStep_def, hpf]
  · intro hq
    rw [hpf, hct20, hcn20, hnf20]
    rw [hq]
    rfl
  · intro hq
    rw [hpf, hq]
    rfl
  · intro st' fr' h
    unfold processFrame
    dsimp only
    rw [if_neg (not_le.mpr h)]

/-- C1 witness: the amended behavior at the concrete 300 baud
configuration, acquired state and zero-confidence locator result. -/
theorem C1_witness :
    stAcq.carrier = true ∧ stAcq.noconfidence = 0 ∧
    frLow.confidence ≤ cfg300.fsk_confidence_threshold ∧
    (((lowConfStep cfg300 framebits_decode_ascii8 frLow)^[20] stAcq).carrier
        = true ∧
     ((lowConfStep cfg300 framebits_decode_ascii8 frLow)^[20]
        stAcq).noconfidence = 20 ∧
     ((lowConfStep cfg300 framebits_decode_ascii8 frLow)^[21] stAcq).carrier
        = false ∧
     ((lowConfStep cfg300 framebits_decode_ascii8 frLow)^[21]
        stAcq).confidence_total = 0 ∧
     ((lowConfStep cfg300 framebits_decode_ascii8 frLow)^[21]
        stAcq).carrier_nsamples = 0 ∧
     ((lowConfStep cfg300 framebits_decode_ascii8 frLow)^[21]
        stAcq).nframes_decoded = 0 ∧
     (cfg300.quiet_mode = false →
       (processFrame cfg300 framebits_decode_ascii8
         ((lowConfStep cfg300 framebits_decode_ascii8 frLow)^[20] stAcq)
         frLow).2 =
         [RxEvent.nocarrier (report_no_carrier cfg300 stAcq.nframes_decoded
           stAcq.carrier_nsamples stAcq.confidence_total)]) ∧
     (cfg300.quiet_mode = true →
       (processFrame cfg300 framebits_decode_ascii8
         ((lowConfStep cfg300 framebits_decode_ascii8 frLow)^[20] stAcq)
         frLow).2 = []) ∧
     (∀ (st' : RxState) (fr' : FrameResult),
       cfg300.fsk_confidence_threshold < fr'.confidence →
       (processFrame cfg300 framebits_decode_ascii8 st' fr').1.noconfidence
         = 0)) :=
  ⟨rfl, rfl, by decide,
   C1_noconfidence_reset cfg300 framebits_decode_ascii8 stAcq frLow rfl rfl
     (by decide)⟩

/-- C2: a located frame is accepted (frame counted, confidence
accumulated, carrier set, decoded bytes emitted) exactly when its
confidence is strictly greater than the configured threshold; when the
confidence is at most the threshold, no bytes are emitted and no frame
is counted. -/
theorem C2_frame_accept_iff (cfg : Config) (decode : ℕ → List ℕ)
    (st : RxState) (fr : FrameResult) :
    (cfg.fsk_confidence_threshold < fr.confidence →
      (processFrame cfg decode st fr).1.nframes_decoded
          = st.nframes_decoded + 1 ∧
      (processFrame cfg decode st fr).1.confidence_total
          = st.confidence_total + fr.confidence ∧
      (processFrame cfg decode st fr).1.carrier = true ∧
      outBytes (processFrame cfg decode st fr).2
          = decode (chop_framing_bits cfg.n_data_bits fr.bits)) ∧
    (fr.confidence ≤ cfg.fsk_confidence_threshold →
      (processFrame cfg decode st fr).1.nframes_decoded
          ≤ st.nframes_decoded ∧
      outBytes (processFrame cfg decode st fr).2 = []) := by
  constructor
  · intro h
    unfold processFrame
    dsimp only
    rw [if_neg (not_le.mpr h)]
    refine ⟨rfl, rfl, rfl, ?_⟩
    rw [outBytes_append, outBytes_carrier_events, outBytes_map_outByte,
      List.nil_append]
  · intro h
    unfold processFrame
    dsimp only
    rw [if_pos h]
    by_cases hnc : FSK_MAX_NOCONFIDENCE_BITS < st.noconfidence + 1
    · rw [if_pos hnc]
      by_cases hcar : st.carrier = true
      · rw [if_pos hcar]
        refine ⟨Nat.zero_le _, ?_⟩
        by_cases hq : cfg.quiet_mode = true
        · rw [if_pos hq]; rfl
        · rw [if_neg hq]; rfl
      · rw [if_neg hcar]
        exact ⟨le_refl _, rfl⟩
    · rw [if_neg hnc]
      exact ⟨le_refl _, rfl⟩

/-- C2 witness: acceptance at confidence 3 over threshold 2, with one
decoded ASCII byte 0xA9 emitted, and rejection at confidence 0. -/
theorem C2_witness :
    cfg300.fsk_confidence_threshold < frGood.confidence ∧
    ((processFrame cfg300 framebits_decode_ascii8 stAcq frGood).1.nframes_decoded
        = stAcq.nframes_decoded + 1 ∧
     (processFrame cfg300 framebits_decode_ascii8 stAcq frGood).1.confidence_total
        = stAcq.confidence_total + frGood.confidence ∧
     (processFrame cfg300 framebits_decode_ascii8 stAcq frGood).1.carrier = true ∧
     outBytes (processFrame cfg300 framebits_decode_ascii8 stAcq frGood).2
        = framebits_decode_ascii8
            (chop_framing_bits cfg300.n_data_bits frGood.bits)) ∧
    frLow.confidence ≤ cfg300.fsk_confidence_threshold ∧
    ((processFrame cfg300 framebits_decode_ascii8 stAcq frLow).1.nframes_decoded
        ≤ stAcq.nframes_decoded ∧
     outBytes (processFrame cfg300 framebits_decode_ascii8 stAcq frLow).2
        = []) :=
  ⟨by decide,
   (C2_frame_accept_iff cfg300 framebits_decode_ascii8 stAcq frGood).1
     (by decide),
   by decide,
   (C2_frame_accept_iff cfg300 framebits_decode_ascii8 stAcq frLow).2
     (by decide)⟩

/-- C3: on a rejected (low-confidence) attempt the advance for the next
iteration is try_max_nsamples = trunc(nsamples_per_bit +
nsamples_overscan); on an accepted frame it is
trunc(frame_start_sample + nsamples_per_bit * (n_data_bits + 2) -
nsamples_overscan). -/
theorem C3_advance (cfg : Config) (decode : ℕ → List ℕ)
    (st : RxState) (fr : FrameResult) :
    (fr.confidence ≤ cfg.fsk_confidence_threshold →
      (processFrame cfg decode st fr).1.advance = try_max_nsamples cfg) ∧
    (cfg.fsk_confidence_threshold < fr.confidence →
      (processFrame cfg decode st fr).1.advance =
        (⌊(fr.frame_start_sample : ℚ)
            + nsamples_per_bit cfg * ((cfg.n_data_bits : ℚ) + 2)
            - (nsamples_overscan cfg : ℚ)⌋).toNat) ∧
    try_max_nsamples cfg =
      (⌊nsamples_per_bit cfg + (nsamples_overscan cfg : ℚ)⌋).toNat := by
  refine ⟨?_, ?_, rfl⟩
  · intro h
    unfold processFrame
    dsimp only
    rw [if_pos h]
    by_cases hnc : FSK_MAX_NOCONFIDENCE_BITS < st.noconfidence + 1
    · rw [if_pos hnc]
      by_cases hcar : st.carrier = true
      · rw [if_pos hcar]
      · rw [if_neg hcar]
    · rw [if_neg hnc]
  · intro h
    unfold processFrame
    dsimp only
    rw [if_neg (not_le.mpr h)]

/-- C3 witness: the two advance values at the concrete 300 baud
configuration (rejected: 240; accepted with frame start 70: 70 + 1600 -
80 = 1590). -/
theorem C3_witness :
    frLow.confidence ≤ cfg300.fsk_confidence_threshold ∧
    (processFrame cfg300 framebits_decode_ascii8 stAcq frLow).1.advance
      = try_max_nsamples cfg300 ∧
    cfg300.fsk_confidence_threshold < frGood.confidence ∧
    (processFrame cfg300 framebits_decode_ascii8 stAcq frGood).1.advance
      = (⌊(frGood.frame_start_sample : ℚ)
          + nsamples_per_bit cfg300 * ((cfg300.n_data_bits : ℚ) + 2)
          - (nsamples_overscan cfg300 : ℚ)⌋).toNat :=
  ⟨by decide,
   (C3_advance cfg300 framebits_decode_ascii8 stAcq frLow).1 (by decide),
   by decide,
   (C3_advance cfg300 framebits_decode_ascii8 stAcq frGood).2.1 (by decide)⟩

/-- C4 (counterexample to the claim as stated): at 48 kHz and 300 baud
with 8 data bits the buffer holds ceil(160) * 13 = 2080 samples, not
ceil(160) * (F + 2) = 160 * 12 = 1920 as the claim computes. -/
theorem C4_counterexample :
    samplebuf_size cfg300 = 2080 ∧
    (⌈nsamples_per_bit cfg300⌉).toNat * ((cfg300.n_data_bits + 2) + 2)
      = 1920 ∧
    ¬ samplebuf_size cfg300 =
        (⌈nsamples_per_bit cfg300⌉).toNat * ((cfg300.n_data_bits + 2) + 2) := by
  decide

/-- C4 (amended): the sliding receive sample buffer is allocated with
capacity ceil(sample_rate / data_rate) * 13 samples, independent of the
data-bit count (13 bit-widths, not F + 2 of them). -/
theorem C4_samplebuf_size (cfg : Config) :
    samplebuf_size cfg =
      (⌈(cfg.sample_rate : ℚ) / cfg.bfsk_data_rate⌉).toNat * 13 := rfl

/-- C5: the carrier-state invariant (nframes_decoded > 0 implies
carrier acquired; carrier not acquired implies confidence_total,
carrier_nsamples and nframes_decoded are all zero) holds at engine
start, is preserved by every frame-processing step, and is preserved by
any run of the receive loop. -/
theorem C5_carrier_invariant (cfg : Config) (decode : ℕ → List ℕ) :
    RxInv initRxState ∧
    (∀ (st : RxState) (fr : FrameResult), RxInv st →
      RxInv (processFrame cfg decode st fr).1) ∧
    (∀ (input : List (ReadResult × FrameResult)) (st : LoopState),
      RxInv st.rx → RxInv (runLoop cfg decode input st).1.rx) :=
  ⟨⟨fun h => absurd h (lt_irrefl 0), fun _ => ⟨rfl, rfl, rfl⟩⟩,
   fun st fr h => processFrame_inv cfg decode st fr h,
   fun input st h => runLoop_inv cfg decode input st h⟩

/-- C5 witness: the invariant at a concrete acquired state, after a
concrete accepted frame, and after a concrete loop run from the initial
state. -/
theorem C5_witness :
    RxInv stAcq ∧
    RxInv (processFrame cfg300 framebits_decode_ascii8 stAcq frGood).1 ∧
    RxInv (runLoop cfg300 framebits_decode_ascii8
      [(ReadResult.ok 2000, frGood)] initLoopState).1.rx :=
  ⟨by decide,
   (C5_carrier_invariant cfg300 framebits_decode_ascii8).2.1 stAcq frGood
     (by decide),
   (C5_carrier_invariant cfg300 framebits_decode_ascii8).2.2
     [(ReadResult.ok 2000, frGood)] initLoopState (by decide)⟩

/-- C6: the NOCARRIER report prints ndata = nframes_decoded, confidence
= confidence_total / nframes_decoded and throughput = nbits_total *
sample_rate / carrier_nsamples with nbits_total = nframes_decoded *
(n_data_bits + 2); it shows the rate-perfect tail exactly when
round(nbits_total * nsamples_per_bit) equals carrier_nsamples, and
labels the skew slow exactly when throughput is below the configured
rate. -/
theorem C6_nocarrier_report (cfg : Config) (nf cn : ℕ) (ct : ℚ)
    (hrate : 0 < cfg.bfsk_data_rate) :
    (report_no_carrier cfg nf cn ct).ndata = nf ∧
    (report_no_carrier cfg nf cn ct).confidence = ct / (nf : ℚ) ∧
    (report_no_carrier cfg nf cn ct).throughput =
      ((nf * (cfg.n_data_bits + 2) : ℕ) : ℚ) * (cfg.sample_rate : ℚ)
        / (cn : ℚ) ∧
    ((report_no_carrier cfg nf cn ct).rate_perfect = true ↔
      round (((nf * (cfg.n_data_bits + 2) : ℕ) : ℚ) * nsamples_per_bit cfg)
        = (cn : ℤ)) ∧
    ((report_no_carrier cfg nf cn ct).rate_perfect = false →
      ((report_no_carrier cfg nf cn ct).skew_slow = true ↔
        (report_no_carrier cfg nf cn ct).throughput < cfg.bfsk_data_rate)) := by
  have hx : (0 : ℚ) ≤
      ((nf * (cfg.n_data_bits + 2) : ℕ) : ℚ) * nsamples_per_bit cfg :=
    mul_nonneg (Nat.cast_nonneg _)
      (div_nonneg (Nat.cast_nonneg _) hrate.le)
  refine ⟨rfl, rfl, rfl, ?_, ?_⟩
  · unfold report_no_carrier
    dsimp only
    rw [beq_iff_eq, round_eq]
    have hfl : 0 ≤
        ⌊((nf * (cfg.n_data_bits + 2) : ℕ) : ℚ) * nsamples_per_bit cfg
          + 1/2⌋ :=
      Int.floor_nonneg.mpr (by linarith)
    omega
  · intro _
    unfold report_no_carrier
    dsimp only
    rw [decide_eq_true_eq, div_lt_iff₀ hrate, zero_mul, sub_neg]

/-- C6 witness: the report fields at the concrete 300 baud
configuration with 2 frames over 3000 carrier samples (throughput 960
bps, not rate perfect, labelled fast). -/
theorem C6_witness :
    (0 : ℚ) < cfg300.bfsk_data_rate ∧
    ((report_no_carrier cfg300 2 3000 5).ndata = 2 ∧
     (report_no_carrier cfg300 2 3000 5).confidence = 5 / ((2 : ℕ) : ℚ) ∧
     (report_no_carrier cfg300 2 3000 5).throughput =
       ((2 * (cfg300.n_data_bits + 2) : ℕ) : ℚ) * (cfg300.sample_rate : ℚ)
         / ((3000 : ℕ) : ℚ) ∧
     ((report_no_carrier cfg300 2 3000 5).rate_perfect = true ↔
       round (((2 * (cfg300.n_data_bits + 2) : ℕ) : ℚ)
           * nsamples_per_bit cfg300) = ((3000 : ℕ) : ℤ)) ∧
     ((report_no_carrier cfg300 2 3000 5).rate_perfect = false →
       ((report_no_carrier cfg300 2 3000 5).skew_slow = true ↔
         (report_no_carrier cfg300 2 3000 5).throughput
           < cfg300.bfsk_data_rate))) :=
  ⟨by decide, C6_nocarrier_report cfg300 2 3000 5 (by decide)⟩

/-- C7: for every input byte stream, each encoded data word is emitted
as one space-tone start bit, then the data bits LSB-first (mark for 1,
space for 0), then the stop period of mark tone; exactly two leading
mark bits are emitted before the first word after idle, and the whole
transmission is leader, then the per-word frames in order, then the
trailer flush. -/
theorem C7_tx_structure (p : TxParams) (encode : ℕ → List ℕ)
    (c : ℕ) (cs : List ℕ) :
    fsk_transmit_stdin p encode (c :: cs) =
      List.replicate tx_leader_bits_len
        { freq := p.bfsk_mark_f, nsamples := tx_bit_nsamples p }
      ++ (c :: cs).flatMap (fun ch => (encode ch).flatMap (txWordTones p))
      ++ txTrailer p ∧
    tx_leader_bits_len = 2 ∧
    ∀ w, txWordTones p w =
      { freq := p.bfsk_space_f, nsamples := tx_bit_nsamples p } ::
      ((List.range p.n_data_bits).map fun i =>
        { freq := if (w >>> i) &&& 1 = 1 then p.bfsk_mark_f
                  else p.bfsk_space_f
          nsamples := tx_bit_nsamples p })
      ++ [{ freq := p.bfsk_mark_f
            nsamples :=
              (⌊(tx_bit_nsamples p : ℚ) * p.bfsk_txstopbits⌋).toNat }] := by
  refine ⟨?_, rfl, fun w => rfl⟩
  unfold fsk_transmit_stdin
  dsimp only
  rw [List.foldl_cons]
  have h1 : txStep p encode (false, []) c =
      (true, List.replicate tx_leader_bits_len
        { freq := p.bfsk_mark_f, nsamples := tx_bit_nsamples p }
        ++ (encode c).flatMap (txWordTones p)) := by
    unfold txStep
    dsimp only
    rw [if_neg (by exact Bool.false_ne_true)]
    simp
  rw [h1, txFold_transmitting]
  dsimp only
  rw [if_pos rfl, List.flatMap_cons]
  simp [List.append_assoc]

/-- C8: the receive loop extracts the data value from the located frame
bits as (bits >> 2) & ((1 << D) - 1), i.e. with mask 0x1F for 5 data
bits and 0xFF for 8 data bits. -/
theorem C8_chop_mask (D bits : ℕ) (h : D = 5 ∨ D = 8) :
    chop_framing_bits D bits = (bits >>> 2) &&& ((1 <<< D) - 1) := by
  rcases h with rfl | rfl <;> rfl

/-- C8 witness: the mask identity at D = 5 and D = 8 on the concrete
frame-bit word 0x2A5. -/
theorem C8_witness :
    ((5 : ℕ) = 5 ∨ (5 : ℕ) = 8) ∧
    chop_framing_bits 5 0x2A5 = (0x2A5 >>> 2) &&& ((1 <<< 5) - 1) ∧
    ((8 : ℕ) = 5 ∨ (8 : ℕ) = 8) ∧
    chop_framing_bits 8 0x2A5 = (0x2A5 >>> 2) &&& ((1 <<< 8) - 1) :=
  ⟨Or.inl rfl, C8_chop_mask 5 0x2A5 (Or.inl rfl),
   Or.inr rfl, C8_chop_mask 8 0x2A5 (Or.inr rfl)⟩

/-- C9: a mid-stream read error makes the loop emit the
simpleaudio_read error message, exit, and return -1; a read of zero
samples with nothing left in the buffer terminates the loop cleanly
with return value 0; the epilogue emits a final NOCARRIER report
exactly when the carrier is acquired and quiet mode is off. -/
theorem C9_read_error_and_eof (cfg : Config) (decode : ℕ → List ℕ)
    (st : LoopState) (fr : FrameResult)
    (rest : List (ReadResult × FrameResult))
    (hsh : ¬(0 < (shiftPhase cfg st).rx.advance ∧
        (shiftPhase cfg st).samples_nvalid < (shiftPhase cfg st).rx.advance))
    (hret : st.ret = 0) :
    ((runLoop cfg decode ((ReadResult.err, fr) :: rest) st).2.2
        = LoopExit.readError ∧
     (runLoop cfg decode ((ReadResult.err, fr) :: rest) st).2.1
        = [RxEvent.readErrorMsg] ∧
     (finishReceive cfg
        (runLoop cfg decode ((ReadResult.err, fr) :: rest) st).1).2 = -1) ∧
    ((shiftPhase cfg st).samples_nvalid = (shiftPhase cfg st).rx.advance →
      (runLoop cfg decode ((ReadResult.ok 0, fr) :: rest) st).2.2
          = LoopExit.eofNoSamples ∧
      (finishReceive cfg
        (runLoop cfg decode ((ReadResult.ok 0, fr) :: rest) st).1).2 = 0) ∧
    (∀ st2 : LoopState,
      (finishReceive cfg st2).1 ≠ [] ↔
        st2.rx.carrier = true ∧ cfg.quiet_mode = false) := by
  refine ⟨?_, ?_, ?_⟩
  · simp only [runLoop]
    rw [if_neg hsh]
    exact ⟨rfl, rfl, rfl⟩
  · intro he
    simp only [runLoop]
    rw [if_neg hsh]
    have hz : (shiftPhase cfg st).samples_nvalid
        - (shiftPhase cfg st).rx.advance + 0 = 0 := by omega
    rw [if_pos hz]
    refine ⟨rfl, ?_⟩
    exact (shiftPhase_ret cfg st).trans hret
  · intro st2
    unfold finishReceive
    dsimp only
    by_cases hb : (st2.rx.carrier && !cfg.quiet_mode) = true
    · rw [if_pos hb]
      simp only [Bool.and_eq_true, Bool.not_eq_true'] at hb
      exact iff_of_true (by simp) ⟨hb.1, hb.2⟩
    · rw [if_neg hb]
      simp only [Bool.and_eq_true, Bool.not_eq_true'] at hb
      exact iff_of_false (fun h => h rfl) hb

/-- C9 witness: the exit behaviors from the initial loop state at the
concrete 300 baud configuration. -/
theorem C9_witness :
    ¬(0 < (shiftPhase cfg300 initLoopState).rx.advance ∧
        (shiftPhase cfg300 initLoopState).samples_nvalid
          < (shiftPhase cfg300 initLoopState).rx.advance) ∧
    initLoopState.ret = 0 ∧
    (((runLoop cfg300 framebits_decode_ascii8
        [(ReadResult.err, frLow)] initLoopState).2.2
        = LoopExit.readError ∧
      (runLoop cfg300 framebits_decode_ascii8
        [(ReadResult.err, frLow)] initLoopState).2.1
        = [RxEvent.readErrorMsg] ∧
      (finishReceive cfg300
        (runLoop cfg300 framebits_decode_ascii8
          [(ReadResult.err, frLow)] initLoopState).1).2 = -1) ∧
     ((shiftPhase cfg300 initLoopState).samples_nvalid
        = (shiftPhase cfg300 initLoopState).rx.advance →
      (runLoop cfg300 framebits_decode_ascii8
          [(ReadResult.ok 0, frLow)] initLoopState).2.2
          = LoopExit.eofNoSamples ∧
      (finishReceive cfg300
        (runLoop cfg300 framebits_decode_ascii8
          [(ReadResult.ok 0, frLow)] initLoopState).1).2 = 0) ∧
     (∀ st2 : LoopState,
       (finishReceive cfg300 st2).1 ≠ [] ↔
         st2.rx.carrier = true ∧ cfg300.quiet_mode = false)) :=
  ⟨by decide, rfl,
   C9_read_error_and_eof cfg300 framebits_decode_ascii8 initLoopState frLow
     [] (by decide) rfl⟩

/-- C10: after the pre-loop sanitization the confidence search limit is
at least the confidence threshold, and the limit actually used for
frame search once carrier is acquired is exactly that sanitized value,
hence at least the threshold. -/
theorem C10_search_limit (threshold limit : ℚ) (cfg : Config)
    (hlim : cfg.fsk_confidence_search_limit
      = sanitize_search_limit threshold limit) :
    threshold ≤ sanitize_search_limit threshold limit ∧
    (try_search_params cfg true).2
      = (sanitize_search_limit threshold limit : WithTop ℚ) ∧
    ((threshold : WithTop ℚ) ≤ (try_search_params cfg true).2) := by
  have h1 : threshold ≤ sanitize_search_limit threshold limit := by
    unfold sanitize_search_limit
    by_cases h : limit < threshold
    · rw [if_pos h]
    · rw [if_neg h]
      exact le_of_not_lt h
  have h2 : (try_search_params cfg true).2
      = (sanitize_search_limit threshold limit : WithTop ℚ) := by
    unfold try_search_params
    rw [if_pos rfl]
    dsimp only
    rw [hlim]
  refine ⟨h1, h2, ?_⟩
  rw [h2]
  exact_mod_cast h1

/-- C10 witness: threshold 5 with configured limit 1 is sanitized up to
5, and the carrier-acquired search limit equals it. -/
theorem C10_witness :
    ({ cfg300 with
       fsk_confidence_threshold := 5
       fsk_confidence_search_limit :=
         sanitize_search_limit 5 1 } : Config).fsk_confidence_search_limit
      = sanitize_search_limit 5 1 ∧
    ((5 : ℚ) ≤ sanitize_search_limit 5 1 ∧
     (try_search_params
       { cfg300 with
         fsk_confidence_threshold := 5
         fsk_confidence_search_limit := sanitize_search_limit 5 1 }
       true).2 = (sanitize_search_limit 5 1 : WithTop ℚ) ∧
     ((5 : ℚ) : WithTop ℚ) ≤
       (try_search_params
         { cfg300 with
           fsk_confidence_threshold := 5
           fsk_confidence_search_limit := sanitize_search_limit 5 1 }
         true).2) :=
  ⟨rfl,
   C10_search_limit 5 1
     { cfg300 with
       fsk_confidence_threshold := 5
       fsk_confidence_search_limit := sanitize_search_limit 5 1 } rfl⟩

end Minimodem
